import Mathlib

/-!
Shallow embedding of `jarvisctl` (src/src/main.rs): a tmux-based orchestrator.
External tmux invocations are modelled by a `Host` oracle that, given the index
of the call (number of calls issued so far) and its argument list, returns the
exit code and captured standard output of that call.  Each embedded operation
threads a `St` record holding the oracle, the trace of issued calls, and the
lines printed to standard output.
-/

namespace Jarvisctl

/-- Equality of `Except` results is decidable componentwise (used to evaluate
embedded operations on concrete hosts). -/
instance {ε α : Type} [DecidableEq ε] [DecidableEq α] : DecidableEq (Except ε α) :=
  fun a b =>
    match a, b with
    | .ok x, .ok y =>
        match decEq x y with
        | .isTrue hxy => .isTrue (by rw [hxy])
        | .isFalse hxy => .isFalse (by intro hc; cases hc; exact hxy rfl)
    | .error x, .error y =>
        match decEq x y with
        | .isTrue hxy => .isTrue (by rw [hxy])
        | .isFalse hxy => .isFalse (by intro hc; cases hc; exact hxy rfl)
    | .ok _, .error _ => .isFalse (by intro hc; cases hc)
    | .error _, .ok _ => .isFalse (by intro hc; cases hc)

/-- Errors of the tool (`JarvisError` in main.rs).  `Io` carries the message of
an I/O error (file read / process spawn), `NonZero` the non-zero exit status of
a tmux call, `ProcessNotFound` a missing pid. -/
inductive JarvisError where
  | Io (msg : String)
  | NonZero (code : Int)
  | ProcessNotFound (pid : Nat)
  deriving DecidableEq, Repr

/-- The external multiplexer host: response (exit code, captured stdout) to the
`n`-th call (0-based, `n` = number of calls already issued) with the given
argument list. -/
abbrev Host := Nat → List String → Int × String

/-- Execution state: the host oracle, the trace of tmux calls issued so far (in
order), and the strings printed to stdout (one entry per `println!`/`print!`). -/
structure St where
  host : Host
  calls : List (List String)
  out : List String

/-- `run_tmux` from main.rs: spawn tmux with `args`, wait, and fail with
`NonZero code` when the exit status is non-zero.  The call is recorded in the
trace before the status check, since the external process runs either way. -/
def run_tmux (args : List String) (s : St) : Except JarvisError Unit × St :=
  let resp := s.host s.calls.length args
  let s' : St := { s with calls := s.calls ++ [args] }
  if resp.1 ≠ 0 then (.error (.NonZero resp.1), s') else (.ok (), s')

/-- `capture_tmux` from main.rs: like `run_tmux` but returns captured stdout. -/
def capture_tmux (args : List String) (s : St) : Except JarvisError String × St :=
  let resp := s.host s.calls.length args
  let s' : St := { s with calls := s.calls ++ [args] }
  if resp.1 ≠ 0 then (.error (.NonZero resp.1), s') else (.ok resp.2, s')

/-- ASCII whitespace as recognised by Rust's `char::is_whitespace` (restricted
to the ASCII range, which is all that arises in this tool's data). -/
def isRustWhitespace (c : Char) : Bool :=
  c = ' ' ∨ c = '\t' ∨ c = '\n' ∨ c = '\r' ∨ c = '\x0b' ∨ c = '\x0c'

/-- Rust `str::trim` on the character list. -/
def trimChars (cs : List Char) : List Char :=
  ((cs.dropWhile isRustWhitespace).reverse.dropWhile isRustWhitespace).reverse

/-- Rust `str::trim`. -/
def strTrim (s : String) : String := String.mk (trimChars s.data)

/-- Split a character list at every newline character; the current (reversed)
line is the accumulator.  `"a\nb"` gives `["a", "b"]`, `""` gives `[""]`. -/
def splitNL : List Char → List Char → List (List Char)
  | [], cur => [cur.reverse]
  | c :: rest, cur =>
      if c = '\n' then cur.reverse :: splitNL rest [] else splitNL rest (c :: cur)

/-- Rust `str::lines`: split at `\n`, a final line ending is optional (no
spurious empty final line), and a trailing `\r` is stripped from each line
(so `\r\n` line endings are handled). -/
def rustLines (s : String) : List String :=
  let parts := splitNL s.data []
  let parts := if parts.getLast? = some [] then parts.dropLast else parts
  parts.map fun p => String.mk (if p.getLast? = some '\r' then p.dropLast else p)

/-- Characters the `shell-words` crate leaves unquoted in `quote`. -/
def shellAllowed (c : Char) : Bool :=
  ('a' ≤ c ∧ c ≤ 'z') ∨ ('A' ≤ c ∧ c ≤ 'Z') ∨ ('0' ≤ c ∧ c ≤ '9') ∨
    c = '-' ∨ c = '_' ∨ c = '=' ∨ c = '/' ∨ c = ',' ∨ c = '.' ∨ c = '+'

/-- `shell_words::quote`: empty words become `''`; words made only of allowed
characters pass through; anything else is single-quoted, with every embedded
single quote rendered as `'\''`. -/
def shellQuote (s : String) : String :=
  if s.data = [] then "''"
  else if s.data.all shellAllowed then s
  else "'" ++ String.mk (s.data.flatMap fun c =>
    if c = '\'' then ['\'', '\\', '\'', '\''] else [c]) ++ "'"

/-- `shell_words::join`: quote each word and join with single spaces. -/
def shellJoin (cmd : List String) : String :=
  String.intercalate " " (cmd.map shellQuote)

end Jarvisctl

namespace Jarvisctl

/-- The wrapped per-window command of `run_session`: `bash -lc 'cd DIR && JOINED'`
when a working directory is given, else `bash -lc 'JOINED'`. -/
def fullCommand (workingDir : Option String) (joined : String) : String :=
  match workingDir with
  | some dir => "bash -lc 'cd " ++ dir ++ " && " ++ joined ++ "'"
  | none => "bash -lc '" ++ joined ++ "'"

/-- The window name `agent<i>` of the `i`-th agent. -/
def windowName (i : Nat) : String := "agent" ++ toString i

/-- tmux argument list creating the namespace together with window `agent0`. -/
def newSessionArgs (ns : String) (wd : Option String) (joined : String) : List String :=
  ["new-session", "-d", "-s", ns, "-n", windowName 0, fullCommand wd joined]

/-- tmux argument list setting the `@jarvisctl` ownership marker. -/
def setMarkerArgs (ns : String) : List String :=
  ["set-option", "-t", ns, "@jarvisctl", "1"]

/-- tmux argument list creating window `agent<i>` in the existing namespace. -/
def newWindowArgs (ns : String) (wd : Option String) (joined : String) (i : Nat) : List String :=
  ["new-window", "-t", ns, "-n", windowName i, fullCommand wd joined]

/-- The loop body of `run_session` for indices `i, i+1, ...` with `r` iterations
remaining: create the window (the namespace itself when `i = 0`), set the
ownership marker right after the `i = 0` creation, abort on the first error. -/
def spawnFrom (ns : String) (wd : Option String) (joined : String) :
    Nat → Nat → St → Except JarvisError Unit × St
  | _, 0, s => (.ok (), s)
  | i, r + 1, s =>
      let args := if i = 0 then newSessionArgs ns wd joined else newWindowArgs ns wd joined i
      match run_tmux args s with
      | (.error e, s') => (.error e, s')
      | (.ok _, s') =>
          if i = 0 then
            match run_tmux (setMarkerArgs ns) s' with
            | (.error e, s'') => (.error e, s'')
            | (.ok _, s'') => spawnFrom ns wd joined (i + 1) r s''
          else spawnFrom ns wd joined (i + 1) r s'

/-- Success message printed by `run_session`. -/
def startedMsg (agents : Nat) (ns : String) : String :=
  "✅ Started " ++ toString agents ++ " agent(s) in '" ++ ns ++
    "'. Attach: jarvisctl attach --namespace " ++ ns

/-- `run_session` from main.rs: shell-join the command, run the per-agent loop
for `i` in `0..agents`, and on success print the summary line. -/
def run_session (ns : String) (agents : Nat) (wd : Option String) (cmd : List String)
    (s : St) : Except JarvisError Unit × St :=
  let joined := shellJoin cmd
  match spawnFrom ns wd joined 0 agents s with
  | (.error e, s') => (.error e, s')
  | (.ok _, s') => (.ok (), { s' with out := s'.out ++ [startedMsg agents ns] })

end Jarvisctl

namespace Jarvisctl

/-- tmux argument list enumerating all session names. -/
def listSessionsArgs : List String := ["list-sessions", "-F", "#{session_name}"]

/-- tmux argument list reading the `@jarvisctl` marker of a session (`-q`:
quiet, so a missing option or session yields empty output, not an error). -/
def showMarkerArgs (sessionName : String) : List String :=
  ["show-option", "-qv", "-t", sessionName, "@jarvisctl"]

/-- tmux argument list printing the one-line summary of a session. -/
def displayMessageArgs (sessionName : String) : List String :=
  ["display-message", "-p", "-t", sessionName,
    "#{session_name}: #{session_windows} windows (created #{session_created})"]

/-- tmux argument list enumerating the windows of a session. -/
def listWindowsArgs (sessionName : String) : List String :=
  ["list-windows", "-t", sessionName]

/-- The marker-filter loop of `list_sessions` (unscoped mode): for each
enumerated line, trim it, read the ownership marker, and retain the name when
the trimmed marker equals `"1"`; abort on the first failing read. -/
def scanSessions : List String → St → Except JarvisError (List String) × St
  | [], s => (.ok [], s)
  | line :: rest, s =>
      let sessionName := strTrim line
      match capture_tmux (showMarkerArgs sessionName) s with
      | (.error e, s') => (.error e, s')
      | (.ok marker, s') =>
          match scanSessions rest s' with
          | (.error e, s'') => (.error e, s'')
          | (.ok valid, s'') =>
              (.ok (if strTrim marker = "1" then sessionName :: valid else valid), s'')

/-- The summary loop of `list_sessions`: one `display-message` call per valid
session, printing the trimmed output. -/
def summaryLoop : List String → St → Except JarvisError Unit × St
  | [], s => (.ok (), s)
  | sess :: rest, s =>
      match capture_tmux (displayMessageArgs sess) s with
      | (.error e, s') => (.error e, s')
      | (.ok info, s') => summaryLoop rest { s' with out := s'.out ++ [strTrim info] }

/-- The agent-listing loop of `list_sessions`: one `list-windows` call per
valid session, printing the raw output. -/
def windowsLoop : List String → St → Except JarvisError Unit × St
  | [], s => (.ok (), s)
  | sess :: rest, s =>
      match capture_tmux (listWindowsArgs sess) s with
      | (.error e, s') => (.error e, s')
      | (.ok windows, s') => windowsLoop rest { s' with out := s'.out ++ [windows] }

/-- `list_sessions` from main.rs.  Scoped mode (`some ns`): a single
`list-windows` call whose output is printed.  Unscoped mode (`none`): enumerate
all sessions, retain those carrying the `@jarvisctl = 1` marker, report
`(none)`/`(none)` and stop when nothing is retained, else print one summary and
one window listing per retained session. -/
def list_sessions (nsFilter : Option String) (s : St) : Except JarvisError Unit × St :=
  match nsFilter with
  | some ns =>
      match capture_tmux (listWindowsArgs ns) s with
      | (.error e, s') => (.error e, s')
      | (.ok out, s') =>
          (.ok (), { s' with out := s'.out ++ ["Windows in '" ++ ns ++ "':\n" ++ out] })
  | none =>
      match capture_tmux listSessionsArgs s with
      | (.error e, s') => (.error e, s')
      | (.ok allSessionsOutput, s') =>
          match scanSessions (rustLines allSessionsOutput) s' with
          | (.error e, s'') => (.error e, s'')
          | (.ok validSessions, s'') =>
              if validSessions = [] then
                (.ok (), { s'' with out :=
                  s''.out ++ ["NAMESPACES:\n(none)", "AGENTS:\n(none)"] })
              else
                match summaryLoop validSessions
                    { s'' with out := s''.out ++ ["NAMESPACES:"] } with
                | (.error e, s3) => (.error e, s3)
                | (.ok _, s3) =>
                    match windowsLoop validSessions
                        { s3 with out := s3.out ++ ["\nAGENTS:"] } with
                    | (.error e, s4) => (.error e, s4)
                    | (.ok _, s4) => (.ok (), s4)

/-- tmux argument list sending one literal line followed by the line-feed key. -/
def sendLineArgs (target line : String) : List String :=
  ["send-keys", "-t", target, line, "C-j"]

/-- tmux argument list sending only the submission key. -/
def sendEnterArgs (target : String) : List String :=
  ["send-keys", "-t", target, "Enter"]

/-- The per-line loop of `tell`: send each line followed by `C-j`, aborting on
the first failing call. -/
def sendLines (target : String) : List String → St → Except JarvisError Unit × St
  | [], s => (.ok (), s)
  | line :: rest, s =>
      match run_tmux (sendLineArgs target line) s with
      | (.error e, s') => (.error e, s')
      | (.ok _, s') => sendLines target rest s'

/-- Success message printed by `tell`. -/
def sentMsg (file ns agent : String) : String :=
  "✅ Sent '" ++ file ++ "' to '" ++ ns ++ "':'" ++ agent ++ "'"

/-- `tell` from main.rs.  The result of `std::fs::read_to_string` is passed in
as `fileContent` (`.error msg` when the read fails with an I/O error): the file
is read in full before any tmux interaction.  On success the content is split
into lines, each line is sent followed by `C-j`, and a final call sends only
`Enter`. -/
def tell (ns agent file : String) (fileContent : Except String String)
    (s : St) : Except JarvisError Unit × St :=
  match fileContent with
  | .error msg => (.error (.Io msg), s)
  | .ok contents =>
      let target := ns ++ ":" ++ agent
      match sendLines target (rustLines contents) s with
      | (.error e, s') => (.error e, s')
      | (.ok _, s') =>
          match run_tmux (sendEnterArgs target) s' with
          | (.error e, s'') => (.error e, s'')
          | (.ok _, s'') =>
              (.ok (), { s'' with out := s''.out ++ [sentMsg file ns agent] })

/-- Outcome of invoking the `run` subcommand through the CLI: either the
argument parser rejects the invocation (before any dispatch), or the parsed
arguments are dispatched and `run_session`'s result is returned. -/
inductive CliOutcome where
  | parseError : CliOutcome
  | ran : Except JarvisError Unit → CliOutcome

/-- Modelled from the spec: the clap derive on `Command::Run` declares the
trailing `command` argument with `required = true`, so an invocation with an
empty command list is rejected by argument parsing before `dispatch` (and hence
`run_session`) runs; this parsing layer lives in the clap library, not in
main.rs.  With a non-empty command the invocation parses and is dispatched to
`run_session`. -/
def runEntry (ns : String) (agents : Nat) (wd : Option String) (cmd : List String)
    (s : St) : CliOutcome × St :=
  if cmd = [] then (.parseError, s)
  else
    match run_session ns agents wd cmd s with
    | (r, s') => (.ran r, s')

end Jarvisctl

namespace Jarvisctl

/-- Lexer mode for POSIX shell word splitting: outside quotes, inside single
quotes, inside double quotes, and the two states following an unquoted or
double-quoted backslash. -/
inductive ShMode where
  | normal | single | double | escNormal | escDouble
  deriving DecidableEq

/-- One step of POSIX shell word recognition (quoting and field splitting of a
simple command, with no expansions): blanks outside quotes separate words,
single quotes preserve everything up to the next single quote, double quotes
preserve everything except `\` escapes of `$`, backquote, `"`, `\` and line
continuations, and an unquoted backslash escapes the next character.  `cur` is
the current word (characters reversed, `none` when between words), `acc` the
completed words (reversed, characters reversed).  Returns `none` on an unclosed
quote or trailing backslash. -/
def shSplitAux : List Char → ShMode → Option (List Char) → List (List Char) →
    Option (List (List Char))
  | [], .normal, cur, acc =>
      some (match cur with | none => acc | some w => w :: acc)
  | [], _, _, _ => none
  | c :: rest, .normal, cur, acc =>
      if c = ' ' ∨ c = '\t' ∨ c = '\n' then
        match cur with
        | none => shSplitAux rest .normal none acc
        | some w => shSplitAux rest .normal none (w :: acc)
      else if c = '\'' then shSplitAux rest .single (some (cur.getD [])) acc
      else if c = '"' then shSplitAux rest .double (some (cur.getD [])) acc
      else if c = '\\' then shSplitAux rest .escNormal cur acc
      else shSplitAux rest .normal (some (c :: cur.getD [])) acc
  | c :: rest, .escNormal, cur, acc =>
      if c = '\n' then shSplitAux rest .normal cur acc
      else shSplitAux rest .normal (some (c :: cur.getD [])) acc
  | c :: rest, .single, cur, acc =>
      if c = '\'' then shSplitAux rest .normal cur acc
      else shSplitAux rest .single (some (c :: cur.getD [])) acc
  | c :: rest, .double, cur, acc =>
      if c = '"' then shSplitAux rest .normal cur acc
      else if c = '\\' then shSplitAux rest .escDouble cur acc
      else shSplitAux rest .double (some (c :: cur.getD [])) acc
  | c :: rest, .escDouble, cur, acc =>
      if c = '$' ∨ c = '\x60' ∨ c = '"' ∨ c = '\\' then
        shSplitAux rest .double (some (c :: cur.getD [])) acc
      else if c = '\n' then shSplitAux rest .double cur acc
      else shSplitAux rest .double (some (c :: '\\' :: cur.getD [])) acc

/-- POSIX shell word splitting of a simple command line: the list of words
after quote processing and field splitting, or `none` when the line is not
well formed (unclosed quote). -/
def shSplit (s : String) : Option (List String) :=
  (shSplitAux s.data .normal none []).map fun ws =>
    (ws.reverse).map fun w => String.mk w.reverse

/-- The claim of the spec's round-trip property, stated from the spec's words:
interpreting the wrapped command string built by `run_session` with a POSIX
shell yields `bash`, `-lc` and a single script word, and interpreting that
script word re-splits into exactly the original argument list. -/
def wrappedRoundTrips (wd : Option String) (cmd : List String) : Prop :=
  ∃ script, shSplit (fullCommand wd (shellJoin cmd)) = some ["bash", "-lc", script]
    ∧ shSplit script = some cmd

end Jarvisctl

namespace Jarvisctl

/-- Every call to the host succeeds (exit code `0`). -/
def AllOk (h : Host) : Prop := ∀ n a, (h n a).1 = 0

/-- The host gives exit code `0` to the calls at indices below `t` and exit
code `c` to the call at index `t` (whatever its arguments): the `t+1`-st call
of a run starting from an empty trace is the failing one. -/
def FailsAt (h : Host) (t : Nat) (c : Int) : Prop :=
  (∀ j a, j < t → (h j a).1 = 0) ∧ (∀ a, (h t a).1 = c)

/-- The sessions retained by the marker-filter loop, computed directly from the
host: the marker of the `i`-th enumerated line is read by the call at index
`k + i`, and a line is retained when the trimmed read output equals `"1"`. -/
def scanSpec (h : Host) (k : Nat) : List String → List String
  | [] => []
  | line :: rest =>
      let sessionName := strTrim line
      let marker := (h k (showMarkerArgs sessionName)).2
      let restValid := scanSpec h (k + 1) rest
      if strTrim marker = "1" then sessionName :: restValid else restValid

/-- A concrete host with a single enumerated session `B` that does not carry
the ownership marker: every call exits `0`, enumeration prints `B`, every
other capture (in particular `B`'s marker read) prints nothing. -/
def hostOneUnowned : Host := fun _ args =>
  if args = listSessionsArgs then (0, "B\n") else (0, "")

/-- A concrete host on which every call exits `0` with empty output. -/
def hostAllZero : Host := fun _ _ => (0, "")

/-- A concrete host enumerating sessions `A`, `B`, `C`, of which `A` and `C`
carry the ownership marker `"1"` and `B` does not; all other captures print
nothing and every call exits `0`. -/
def hostABC : Host := fun _ args =>
  if args = listSessionsArgs then (0, "A\nB\nC\n")
  else if args = showMarkerArgs "A" ∨ args = showMarkerArgs "C" then (0, "1")
  else (0, "")

/-- A concrete host failing exactly at call index `t` with exit code `2`. -/
def hostFailAt (t : Nat) : Host := fun n _ => (if n = t then 2 else 0, "")

/-- A concrete host whose first call succeeds printing one session name `A`
and whose second call fails with exit code `2`. -/
def hostFailSecond : Host := fun n _ => if n = 1 then (2, "") else (0, "A\n")

end Jarvisctl

namespace Jarvisctl

theorem spawnFrom_ok (ns : String) (wd : Option String) (joined : String) :
    ∀ (r i : Nat) (s : St), 1 ≤ i → AllOk s.host →
    spawnFrom ns wd joined i r s =
      (.ok (), { s with calls :=
        s.calls ++ (List.range r).map fun j => newWindowArgs ns wd joined (i + j) }) := by
  intro r
  induction r with
  | zero => intro i s hi hz; simp [spawnFrom]
  | succ r ih =>
      intro i s hi hz
      have hi0 : ¬ i = 0 := by omega
      have hz0 := hz s.calls.length (newWindowArgs ns wd joined i)
      simp only [spawnFrom, hi0, if_false, run_tmux, hz0, ne_eq, not_true_eq_false,
        ite_false, if_neg]
      rw [ih (i + 1) _ (by omega) (by intro n a; exact hz n a)]
      simp only [List.range_succ_eq_map, List.map_cons, List.map_map, Function.comp]
      have harith : ∀ j : Nat, i + 1 + j = i + (j + 1) := by omega
      simp [harith, List.append_assoc]

/-- C1: for every agent count `N ≥ 1`, non-empty command and namespace name,
`run_session` (on a host where every call succeeds) issues exactly one
`new-session` call, then the `set-option @jarvisctl 1` marker call as the
second call overall, then exactly `N - 1` `new-window` calls in index order
with window names `agent1 .. agent(N-1)` (window `agent0` being named in the
`new-session` call), and prints the success summary. -/
theorem c1_spawn_call_order (ns : String) (agents : Nat) (wd : Option String)
    (cmd : List String) (s : St) (hN : 1 ≤ agents) (_hcmd : cmd ≠ [])
    (hz : AllOk s.host) :
    run_session ns agents wd cmd s =
      (.ok (), { s with
        calls := s.calls ++ [newSessionArgs ns wd (shellJoin cmd), setMarkerArgs ns] ++
          (List.range (agents - 1)).map fun j => newWindowArgs ns wd (shellJoin cmd) (1 + j),
        out := s.out ++ [startedMsg agents ns] }) := by
  obtain ⟨n, rfl⟩ : ∃ n, agents = n + 1 := ⟨agents - 1, by omega⟩
  have hz0 := hz s.calls.length (newSessionArgs ns wd (shellJoin cmd))
  have hz1 := hz (s.calls ++ [newSessionArgs ns wd (shellJoin cmd)]).length (setMarkerArgs ns)
  simp only [run_session, spawnFrom, if_pos, run_tmux, hz0, hz1, ne_eq,
    not_true_eq_false, ite_false, if_neg]
  rw [spawnFrom_ok ns wd (shellJoin cmd) n 1 _ (by omega) (by intro m a; exact hz m a)]
  simp [List.append_assoc, Nat.add_comm]

/-- Witness for C1 at `N = 3`, command `["echo", "hi"]`, on `hostAllZero`. -/
theorem c1_spawn_call_order_witness :
    (1 ≤ 3 ∧ (["echo", "hi"] : List String) ≠ [] ∧ AllOk hostAllZero) ∧
    run_session "ns" 3 none ["echo", "hi"] ⟨hostAllZero, [], []⟩ =
      (.ok (), ⟨hostAllZero,
        [newSessionArgs "ns" none (shellJoin ["echo", "hi"]), setMarkerArgs "ns",
          newWindowArgs "ns" none (shellJoin ["echo", "hi"]) 1,
          newWindowArgs "ns" none (shellJoin ["echo", "hi"]) 2],
        [startedMsg 3 "ns"]⟩) := by
  refine ⟨⟨by omega, by decide, fun _ _ => rfl⟩, ?_⟩
  rw [c1_spawn_call_order "ns" 3 none ["echo", "hi"] ⟨hostAllZero, [], []⟩ (by omega)
    (by decide) (fun _ _ => rfl)]
  simp [List.range_succ]

/-- C10: with agent count `0` (reachable via `--agents 0`), `run_session`
issues no tmux call at all (in particular no ownership marker is set), prints
the success summary reporting `0` agent(s), and returns success. -/
theorem c10_zero_agents (ns : String) (wd : Option String) (cmd : List String)
    (s : St) :
    run_session ns 0 wd cmd s =
      (.ok (), { s with out := s.out ++ [startedMsg 0 ns] }) := by
  simp [run_session, spawnFrom]

/-- C4: when reading the file fails with an I/O error, `tell` returns that
error with the state untouched: zero tmux calls are issued, since the file is
read in full before any host interaction. -/
theorem c4_tell_read_error (ns agent file msg : String) (s : St) :
    tell ns agent file (.error msg) s = (.error (.Io msg), s) := by
  simp [tell]

/-- C9: an invocation of the `run` subcommand with an empty command list is
rejected by argument parsing, with the state untouched: zero external
control-plane calls are made. -/
theorem c9_empty_command_rejected (ns : String) (agents : Nat)
    (wd : Option String) (s : St) :
    runEntry ns agents wd [] s = (.parseError, s) := by
  simp [runEntry]

theorem sendLines_ok (target : String) :
    ∀ (lines : List String) (s : St), AllOk s.host →
    sendLines target lines s =
      (.ok (), { s with calls := s.calls ++ lines.map (sendLineArgs target) }) := by
  intro lines
  induction lines with
  | nil => intro s hz; simp [sendLines]
  | cons line rest ih =>
      intro s hz
      have hz0 := hz s.calls.length (sendLineArgs target line)
      simp only [sendLines, run_tmux, hz0, ne_eq, not_true_eq_false, ite_false, if_neg]
      rw [ih _ (by intro n a; exact hz n a)]
      simp

/-- C3: for every file content, `tell` (on a host where every call succeeds)
issues exactly `L + 1` send-keys calls where `L` is the number of lines of the
content under Rust's line splitting (a trailing newline producing no spurious
empty final line): one `(line, C-j)` call per line in file order, then one
final call carrying only the `Enter` submission key. -/
theorem c3_tell_send_keys (ns agent file content : String) (s : St)
    (hz : AllOk s.host) :
    tell ns agent file (.ok content) s =
      (.ok (), { s with
        calls := s.calls ++ (rustLines content).map (sendLineArgs (ns ++ ":" ++ agent)) ++
          [sendEnterArgs (ns ++ ":" ++ agent)],
        out := s.out ++ [sentMsg file ns agent] }) := by
  simp only [tell]
  rw [sendLines_ok (ns ++ ":" ++ agent) (rustLines content) s hz]
  have hz1 := hz (s.calls ++ (rustLines content).map (sendLineArgs (ns ++ ":" ++ agent))).length
    (sendEnterArgs (ns ++ ":" ++ agent))
  simp only [run_tmux, hz1, ne_eq, not_true_eq_false, ite_false, if_neg]

/-- Witness for C3 on a 3-line file with trailing newline: exactly 4 calls. -/
theorem c3_tell_send_keys_witness :
    AllOk hostAllZero ∧
    tell "ns" "agent0" "f.txt" (.ok "a\nb\nc\n") ⟨hostAllZero, [], []⟩ =
      (.ok (), ⟨hostAllZero,
        [sendLineArgs "ns:agent0" "a", sendLineArgs "ns:agent0" "b",
          sendLineArgs "ns:agent0" "c", sendEnterArgs "ns:agent0"],
        [sentMsg "f.txt" "ns" "agent0"]⟩) := by
  refine ⟨fun _ _ => rfl, ?_⟩
  rw [c3_tell_send_keys "ns" "agent0" "f.txt" "a\nb\nc\n" ⟨hostAllZero, [], []⟩
    (fun _ _ => rfl)]
  rfl

/-- C8: the ownership check of the discovery scan compares the marker read's
output, trimmed of surrounding whitespace, to the literal `"1"`; a session is
retained exactly when that comparison holds.  When the read yields the empty
string (as tmux's quiet `show-option -qv` does for a missing session or an
unset key, exiting `0`), the session is simply not retained — the check yields
false, not an error. -/
theorem c8_marker_check (line m : String) (s : St)
    (hm : s.host s.calls.length (showMarkerArgs (strTrim line)) = (0, m)) :
    (scanSessions [line] s =
      (.ok (if strTrim m = "1" then [strTrim line] else []),
        { s with calls := s.calls ++ [showMarkerArgs (strTrim line)] })) ∧
    (m = "" → scanSessions [line] s =
      (.ok [], { s with calls := s.calls ++ [showMarkerArgs (strTrim line)] })) := by
  constructor
  · simp [scanSessions, capture_tmux, hm]
  · intro hrfl
    subst hrfl
    have h1 : ¬ strTrim "" = "1" := by decide
    simp [scanSessions, capture_tmux, hm, h1]

/-- Witness for C8 with marker output `" 1 \n"` (trims to `"1"`: retained) on
one state and `""` (not retained, no error) on another. -/
theorem c8_marker_check_witness :
    (hostAllZero 0 (showMarkerArgs (strTrim "B")) = (0, "")) ∧
    scanSessions ["B"] ⟨hostAllZero, [], []⟩ =
      (.ok [], ⟨hostAllZero, [showMarkerArgs "B"], []⟩) := by
  refine ⟨rfl, ?_⟩
  have h := (c8_marker_check "B" "" ⟨hostAllZero, [], []⟩ rfl).2 rfl
  exact h

/-- C2: unscoped `list_sessions` over a host enumerating `A`, `B`, `C` where
`A` and `C` carry marker `"1"` and `B` does not retains exactly `A, C` in
host-reported order, issuing exactly three marker reads, two summary calls and
two window listings (trace listed explicitly); and over a host whose only
entity `A` is unowned it prints `(none)` for namespaces and agents, issuing no
summary or window-listing call. -/
theorem c2_unscoped_discovery (h h' : Host) (sA sC wA wC : String)
    (e0 : h 0 listSessionsArgs = (0, "A\nB\nC\n"))
    (e1 : h 1 (showMarkerArgs "A") = (0, "1"))
    (e2 : h 2 (showMarkerArgs "B") = (0, ""))
    (e3 : h 3 (showMarkerArgs "C") = (0, "1"))
    (e4 : h 4 (displayMessageArgs "A") = (0, sA))
    (e5 : h 5 (displayMessageArgs "C") = (0, sC))
    (e6 : h 6 (listWindowsArgs "A") = (0, wA))
    (e7 : h 7 (listWindowsArgs "C") = (0, wC))
    (f0 : h' 0 listSessionsArgs = (0, "B\n"))
    (f1 : h' 1 (showMarkerArgs "B") = (0, "")) :
    (list_sessions none ⟨h, [], []⟩ =
      (.ok (), ⟨h,
        [listSessionsArgs, showMarkerArgs "A", showMarkerArgs "B", showMarkerArgs "C",
          displayMessageArgs "A", displayMessageArgs "C",
          listWindowsArgs "A", listWindowsArgs "C"],
        ["NAMESPACES:", strTrim sA, strTrim sC, "\nAGENTS:", wA, wC]⟩)) ∧
    (list_sessions none ⟨h', [], []⟩ =
      (.ok (), ⟨h',
        [listSessionsArgs, showMarkerArgs "B"],
        ["NAMESPACES:\n(none)", "AGENTS:\n(none)"]⟩)) := by
  have hlines : rustLines "A\nB\nC\n" = ["A", "B", "C"] := by decide
  have hlines' : rustLines "B\n" = ["B"] := by decide
  have htA : strTrim "A" = "A" := by decide
  have htB : strTrim "B" = "B" := by decide
  have htC : strTrim "C" = "C" := by decide
  have ht1 : strTrim "1" = "1" := by decide
  have ht0 : ¬ strTrim "" = "1" := by decide
  constructor
  · simp [list_sessions, capture_tmux, scanSessions, summaryLoop, windowsLoop,
      e0, e1, e2, e3, e4, e5, e6, e7, hlines, htA, htB, htC, ht1, ht0]
  · simp [list_sessions, capture_tmux, scanSessions, f0, f1, hlines', htB, ht0]

/-- Witness for C2 on the concrete hosts `hostABC` and `hostOneUnowned`. -/
theorem c2_unscoped_discovery_witness :
    (hostABC 0 listSessionsArgs = (0, "A\nB\nC\n") ∧
      hostABC 1 (showMarkerArgs "A") = (0, "1") ∧
      hostABC 2 (showMarkerArgs "B") = (0, "") ∧
      hostABC 3 (showMarkerArgs "C") = (0, "1") ∧
      hostOneUnowned 0 listSessionsArgs = (0, "B\n") ∧
      hostOneUnowned 1 (showMarkerArgs "B") = (0, "")) ∧
    (list_sessions none ⟨hostABC, [], []⟩ =
      (.ok (), ⟨hostABC,
        [listSessionsArgs, showMarkerArgs "A", showMarkerArgs "B", showMarkerArgs "C",
          displayMessageArgs "A", displayMessageArgs "C",
          listWindowsArgs "A", listWindowsArgs "C"],
        ["NAMESPACES:", strTrim "", strTrim "", "\nAGENTS:", "", ""]⟩)) ∧
    (list_sessions none ⟨hostOneUnowned, [], []⟩ =
      (.ok (), ⟨hostOneUnowned,
        [listSessionsArgs, showMarkerArgs "B"],
        ["NAMESPACES:\n(none)", "AGENTS:\n(none)"]⟩)) := by
  refine ⟨⟨by decide, by decide, by decide, by decide, by decide, by decide⟩, ?_, ?_⟩
  · exact (c2_unscoped_discovery hostABC hostOneUnowned "" "" "" ""
      (by decide) (by decide) (by decide) (by decide) (by decide) (by decide)
      (by decide) (by decide) (by decide) (by decide)).1
  · exact (c2_unscoped_discovery hostABC hostOneUnowned "" "" "" ""
      (by decide) (by decide) (by decide) (by decide) (by decide) (by decide)
      (by decide) (by decide) (by decide) (by decide)).2

theorem scanSessions_ok :
    ∀ (names : List String) (s : St), AllOk s.host →
    scanSessions names s =
      (.ok (scanSpec s.host s.calls.length names),
        { s with calls := s.calls ++ names.map fun l => showMarkerArgs (strTrim l) }) := by
  intro names
  induction names with
  | nil => intro s hz; simp [scanSessions, scanSpec]
  | cons line rest ih =>
      intro s hz
      have hz0 := hz s.calls.length (showMarkerArgs (strTrim line))
      simp only [scanSessions, capture_tmux, hz0, ne_eq, not_true_eq_false, ite_false,
        if_neg]
      rw [ih _ (by intro n a; exact hz n a)]
      simp [scanSpec, List.append_assoc]

theorem summaryLoop_ok :
    ∀ (sessions : List String) (s : St), AllOk s.host →
    ∃ printed, summaryLoop sessions s =
      (.ok (), { s with calls := s.calls ++ sessions.map displayMessageArgs,
                        out := s.out ++ printed }) := by
  intro sessions
  induction sessions with
  | nil => intro s hz; exact ⟨[], by simp [summaryLoop]⟩
  | cons sess rest ih =>
      intro s hz
      have hz0 := hz s.calls.length (displayMessageArgs sess)
      obtain ⟨printed, hp⟩ := ih
        { s with calls := s.calls ++ [displayMessageArgs sess],
                 out := s.out ++ [strTrim ((s.host s.calls.length (displayMessageArgs sess)).2)] }
        (by intro n a; exact hz n a)
      refine ⟨strTrim ((s.host s.calls.length (displayMessageArgs sess)).2) :: printed, ?_⟩
      simp only [summaryLoop, capture_tmux, hz0, ne_eq, not_true_eq_false, ite_false,
        if_neg]
      rw [hp]
      simp

theorem windowsLoop_ok :
    ∀ (sessions : List String) (s : St), AllOk s.host →
    ∃ printed, windowsLoop sessions s =
      (.ok (), { s with calls := s.calls ++ sessions.map listWindowsArgs,
                        out := s.out ++ printed }) := by
  intro sessions
  induction sessions with
  | nil => intro s hz; exact ⟨[], by simp [windowsLoop]⟩
  | cons sess rest ih =>
      intro s hz
      have hz0 := hz s.calls.length (listWindowsArgs sess)
      obtain ⟨printed, hp⟩ := ih
        { s with calls := s.calls ++ [listWindowsArgs sess],
                 out := s.out ++ [(s.host s.calls.length (listWindowsArgs sess)).2] }
        (by intro n a; exact hz n a)
      refine ⟨(s.host s.calls.length (listWindowsArgs sess)).2 :: printed, ?_⟩
      simp only [windowsLoop, capture_tmux, hz0, ne_eq, not_true_eq_false, ite_false,
        if_neg]
      rw [hp]
      simp

/-- C7 (amended): on a host where every call succeeds, an unscoped list issues
exactly `1 + N + 2K` client calls, where `N` is the number of entities returned
by the initial enumeration (one marker read per entity regardless of
ownership) and `K ≤ N` is the number of owned entities (two further calls per
owned namespace).  The claim's formula `1 + 3N` is obtained only when `K = N`. -/
theorem c7_amended_call_count (s : St) (hz : AllOk s.host) (h0 : s.calls = []) :
    (list_sessions none s).1 = .ok () ∧
    (list_sessions none s).2.calls.length =
      1 + (rustLines (s.host 0 listSessionsArgs).2).length +
        2 * (scanSpec s.host 1 (rustLines (s.host 0 listSessionsArgs).2)).length := by
  obtain ⟨hh, cc, oo⟩ := s
  simp only at h0 hz ⊢
  subst h0
  have hz0 := hz 0 listSessionsArgs
  simp only [list_sessions, capture_tmux, List.length_nil, hz0, ne_eq,
    not_true_eq_false, ite_false, if_neg, List.nil_append]
  rw [scanSessions_ok (rustLines (hh 0 listSessionsArgs).2)
    ⟨hh, [listSessionsArgs], oo⟩ (by intro n a; exact hz n a)]
  simp only [List.length_cons, List.length_nil, Nat.zero_add]
  by_cases hv : scanSpec hh 1 (rustLines (hh 0 listSessionsArgs).2) = []
  · simp [hv]
    omega
  · simp only [if_neg hv]
    obtain ⟨p1, hsum⟩ := summaryLoop_ok
      (scanSpec hh 1 (rustLines (hh 0 listSessionsArgs).2))
      { host := hh,
        calls := [listSessionsArgs] ++
          (rustLines (hh 0 listSessionsArgs).2).map fun l => showMarkerArgs (strTrim l),
        out := oo ++ ["NAMESPACES:"] }
      (by intro n a; exact hz n a)
    rw [hsum]
    dsimp only
    obtain ⟨p2, hwin⟩ := windowsLoop_ok
      (scanSpec hh 1 (rustLines (hh 0 listSessionsArgs).2))
      { host := hh,
        calls := ([listSessionsArgs] ++
          (rustLines (hh 0 listSessionsArgs).2).map fun l => showMarkerArgs (strTrim l)) ++
          (scanSpec hh 1 (rustLines (hh 0 listSessionsArgs).2)).map displayMessageArgs,
        out := (oo ++ ["NAMESPACES:"] ++ p1) ++ ["\nAGENTS:"] }
      (by intro n a; exact hz n a)
    rw [hwin]
    dsimp only
    simp only [List.length_append, List.length_map, List.length_cons, List.length_nil]
    exact ⟨trivial, by omega⟩

/-- Counterexample to C7 as stated: on `hostOneUnowned` the enumeration
returns `N = 1` entity, but only `2` calls are issued, not `1 + 3 * 1 = 4`. -/
theorem c7_formula_counterexample :
    (list_sessions none ⟨hostOneUnowned, [], []⟩).1 = .ok () ∧
    (rustLines (hostOneUnowned 0 listSessionsArgs).2).length = 1 ∧
    (list_sessions none ⟨hostOneUnowned, [], []⟩).2.calls.length = 2 ∧
    (2 : Nat) ≠ 1 + 3 * 1 := by decide

/-- Witness for the amended C7 on `hostOneUnowned`: `N = 1`, `K = 0`, and
exactly `1 + 1 + 0 = 2` calls. -/
theorem c7_amended_call_count_witness :
    (AllOk hostOneUnowned ∧ (⟨hostOneUnowned, [], []⟩ : St).calls = []) ∧
    ((list_sessions none ⟨hostOneUnowned, [], []⟩).1 = .ok () ∧
      (list_sessions none ⟨hostOneUnowned, [], []⟩).2.calls.length =
        1 + (rustLines (hostOneUnowned 0 listSessionsArgs).2).length +
          2 * (scanSpec hostOneUnowned 1
            (rustLines (hostOneUnowned 0 listSessionsArgs).2)).length) := by
  have hz : AllOk hostOneUnowned := by
    intro n a
    simp only [hostOneUnowned]
    split <;> rfl
  exact ⟨⟨hz, rfl⟩, c7_amended_call_count ⟨hostOneUnowned, [], []⟩ hz rfl⟩

theorem spawnFrom_fail (ns : String) (wd : Option String) (joined : String)
    (t : Nat) (c : Int) (hc : c ≠ 0) :
    ∀ (r i : Nat) (s : St), 1 ≤ i → FailsAt s.host t c →
    s.calls.length ≤ t → t < s.calls.length + r →
    (spawnFrom ns wd joined i r s).1 = .error (.NonZero c) ∧
    (spawnFrom ns wd joined i r s).2.calls.length = t + 1 := by
  intro r
  induction r with
  | zero => intro i s _ _ hle hlt; omega
  | succ r ih =>
      intro i s hi hf hle hlt
      have hi0 : ¬ i = 0 := by omega
      by_cases ht : s.calls.length = t
      · have hfc := hf.2 (newWindowArgs ns wd joined i)
        simp [spawnFrom, hi0, run_tmux, ht, hfc, hc]
      · have hlt' : s.calls.length < t := by omega
        have h0 := hf.1 s.calls.length (newWindowArgs ns wd joined i) hlt'
        simp only [spawnFrom, hi0, ite_false, if_neg, run_tmux, h0, ne_eq,
          not_true_eq_false, not_false_eq_true]
        exact ih (i + 1) _ (by omega) hf (by simp; omega) (by simp; omega)

theorem scanSessions_fail (t : Nat) (c : Int) (hc : c ≠ 0) :
    ∀ (names : List String) (s : St), FailsAt s.host t c →
    s.calls.length ≤ t → t < s.calls.length + names.length →
    (scanSessions names s).1 = .error (.NonZero c) ∧
    (scanSessions names s).2.calls.length = t + 1 := by
  intro names
  induction names with
  | nil => intro s _ hle hlt; simp at hlt; omega
  | cons line rest ih =>
      intro s hf hle hlt
      by_cases ht : s.calls.length = t
      · have hfc := hf.2 (showMarkerArgs (strTrim line))
        simp [scanSessions, capture_tmux, ht, hfc, hc]
      · have hlt' : s.calls.length < t := by omega
        have h0 := hf.1 s.calls.length (showMarkerArgs (strTrim line)) hlt'
        simp only [scanSessions, capture_tmux, h0, ne_eq, not_true_eq_false,
          not_false_eq_true, ite_false, if_neg]
        have hrec := ih { s with calls := s.calls ++ [showMarkerArgs (strTrim line)] }
          hf (by simp; omega) (by simp at hlt ⊢; omega)
        rcases hsp : scanSessions rest
          { s with calls := s.calls ++ [showMarkerArgs (strTrim line)] } with ⟨r1, s1⟩
        rw [hsp] at hrec
        simp only at hrec
        rw [hrec.1]
        exact ⟨rfl, hrec.2⟩

theorem sendLines_fail (target : String) (t : Nat) (c : Int) (hc : c ≠ 0) :
    ∀ (lines : List String) (s : St), FailsAt s.host t c →
    s.calls.length ≤ t → t < s.calls.length + lines.length →
    (sendLines target lines s).1 = .error (.NonZero c) ∧
    (sendLines target lines s).2.calls.length = t + 1 := by
  intro lines
  induction lines with
  | nil => intro s _ hle hlt; simp at hlt; omega
  | cons line rest ih =>
      intro s hf hle hlt
      by_cases ht : s.calls.length = t
      · have hfc := hf.2 (sendLineArgs target line)
        simp [sendLines, run_tmux, ht, hfc, hc]
      · have hlt' : s.calls.length < t := by omega
        have h0 := hf.1 s.calls.length (sendLineArgs target line) hlt'
        simp only [sendLines, run_tmux, h0, ne_eq, not_true_eq_false,
          not_false_eq_true, ite_false, if_neg]
        exact ih _ hf (by simp; omega) (by simp at hlt ⊢; omega)

theorem sendLines_bounded_ok (target : String) (t : Nat) :
    ∀ (lines : List String) (s : St), (∀ j a, j < t → (s.host j a).1 = 0) →
    s.calls.length + lines.length ≤ t →
    sendLines target lines s =
      (.ok (), { s with calls := s.calls ++ lines.map (sendLineArgs target) }) := by
  intro lines
  induction lines with
  | nil => intro s _ _; simp [sendLines]
  | cons line rest ih =>
      intro s hz hb
      have hz0 := hz s.calls.length (sendLineArgs target line) (by simp at hb; omega)
      simp only [sendLines, run_tmux, hz0, ne_eq, not_true_eq_false, ite_false, if_neg]
      rw [ih _ (by intro j a hj; exact hz j a hj) (by simp at hb ⊢; omega)]
      simp

/-- C5: in each multi-step protocol (the per-agent loop of `run_session`, the
marker scan of unscoped `list_sessions`, the per-line loop of `tell`), when the
host answers the first `t` calls with exit code `0` and the call at 0-based
index `t` with a non-zero code `c` (so the 1-based position of the failing
call is `k = t + 1`), the protocol returns `NonZero c` immediately and exactly
`k = t + 1` calls have been issued — no later call and no retry happens. -/
theorem c5_first_failure_aborts :
    (∀ (ns : String) (wd : Option String) (cmd : List String) (agents : Nat)
        (s : St) (t : Nat) (c : Int), FailsAt s.host t c → c ≠ 0 → s.calls = [] →
        1 ≤ agents → t ≤ agents →
        (run_session ns agents wd cmd s).1 = .error (.NonZero c) ∧
        (run_session ns agents wd cmd s).2.calls.length = t + 1) ∧
    (∀ (s : St) (t : Nat) (c : Int), FailsAt s.host t c → c ≠ 0 → s.calls = [] →
        1 ≤ t → t ≤ (rustLines (s.host 0 listSessionsArgs).2).length →
        (list_sessions none s).1 = .error (.NonZero c) ∧
        (list_sessions none s).2.calls.length = t + 1) ∧
    (∀ (ns agent file content : String) (s : St) (t : Nat) (c : Int),
        FailsAt s.host t c → c ≠ 0 → s.calls = [] →
        t ≤ (rustLines content).length →
        (tell ns agent file (.ok content) s).1 = .error (.NonZero c) ∧
        (tell ns agent file (.ok content) s).2.calls.length = t + 1) := by
  refine ⟨?_, ?_, ?_⟩
  · intro ns wd cmd agents s t c hf hc h0 hN ht
    obtain ⟨n, rfl⟩ : ∃ n, agents = n + 1 := ⟨agents - 1, by omega⟩
    obtain ⟨hh, cc, oo⟩ := s
    simp only at hf h0 ⊢
    subst h0
    obtain _ | _ | t' := t
    · have hfc := hf.2 (newSessionArgs ns wd (shellJoin cmd))
      simp [run_session, spawnFrom, run_tmux, hfc, hc]
    · have h00 := hf.1 0 (newSessionArgs ns wd (shellJoin cmd)) (by omega)
      have hfc := hf.2 (setMarkerArgs ns)
      simp [run_session, spawnFrom, run_tmux, h00, hfc, hc]
    · have h00 := hf.1 0 (newSessionArgs ns wd (shellJoin cmd)) (by omega)
      have h01 := hf.1 1 (setMarkerArgs ns) (by omega)
      have hfail := spawnFrom_fail ns wd (shellJoin cmd) (t' + 2) c hc n 1
        ⟨hh, [newSessionArgs ns wd (shellJoin cmd), setMarkerArgs ns], oo⟩
        (le_refl 1) hf (by simp) (by simp; omega)
      rcases hsp : spawnFrom ns wd (shellJoin cmd) 1 n
        ⟨hh, [newSessionArgs ns wd (shellJoin cmd), setMarkerArgs ns], oo⟩ with ⟨r1, s1⟩
      rw [hsp] at hfail
      simp only at hfail
      obtain ⟨hr1, hlen⟩ := hfail
      subst hr1
      simp [run_session, spawnFrom, run_tmux, h00, h01, hsp, hlen]
  · intro s t c hf hc h0 h1 hN
    obtain ⟨hh, cc, oo⟩ := s
    simp only at hf h0 hN ⊢
    subst h0
    have h00 := hf.1 0 listSessionsArgs (by omega)
    have hfail := scanSessions_fail t c hc (rustLines (hh 0 listSessionsArgs).2)
      ⟨hh, [listSessionsArgs], oo⟩ hf (by simp; omega) (by simp; omega)
    rcases hsp : scanSessions (rustLines (hh 0 listSessionsArgs).2)
      ⟨hh, [listSessionsArgs], oo⟩ with ⟨r1, s1⟩
    rw [hsp] at hfail
    simp only at hfail
    obtain ⟨hr1, hlen⟩ := hfail
    subst hr1
    simp [list_sessions, capture_tmux, h00, hsp, hlen]
  · intro ns agent file content s t c hf hc h0 hL
    obtain ⟨hh, cc, oo⟩ := s
    simp only at hf h0 ⊢
    subst h0
    by_cases hlt : t < (rustLines content).length
    · have hfail := sendLines_fail (ns ++ ":" ++ agent) t c hc (rustLines content)
        ⟨hh, [], oo⟩ hf (by simp) (by simp; omega)
      rcases hsp : sendLines (ns ++ ":" ++ agent) (rustLines content)
        ⟨hh, [], oo⟩ with ⟨r1, s1⟩
      rw [hsp] at hfail
      simp only at hfail
      obtain ⟨hr1, hlen⟩ := hfail
      subst hr1
      simp [tell, hsp, hlen]
    · have htL : t = (rustLines content).length := by omega
      have hok := sendLines_bounded_ok (ns ++ ":" ++ agent) t (rustLines content)
        ⟨hh, [], oo⟩ (by intro j a hj; exact hf.1 j a hj) (by simp; omega)
      have hfc := hf.2 (sendEnterArgs (ns ++ ":" ++ agent))
      rw [htL] at hfc
      simp [tell, hok, run_tmux, hfc, hc, htL]

/-- Witness for C5: failures at concrete positions in each protocol. -/
theorem c5_first_failure_aborts_witness :
    (FailsAt (hostFailAt 0) 0 2 ∧ FailsAt hostFailSecond 1 2 ∧
      1 ≤ (rustLines (hostFailSecond 0 listSessionsArgs).2).length) ∧
    ((run_session "ns" 1 none ["echo"] ⟨hostFailAt 0, [], []⟩).1 =
        .error (.NonZero 2) ∧
      (run_session "ns" 1 none ["echo"] ⟨hostFailAt 0, [], []⟩).2.calls.length = 0 + 1) ∧
    ((list_sessions none ⟨hostFailSecond, [], []⟩).1 = .error (.NonZero 2) ∧
      (list_sessions none ⟨hostFailSecond, [], []⟩).2.calls.length = 1 + 1) ∧
    ((tell "ns" "agent0" "f" (.ok "a\n") ⟨hostFailAt 0, [], []⟩).1 =
        .error (.NonZero 2) ∧
      (tell "ns" "agent0" "f" (.ok "a\n") ⟨hostFailAt 0, [], []⟩).2.calls.length = 0 + 1) := by
  have hfa : FailsAt (hostFailAt 0) 0 2 := by
    refine ⟨?_, fun a => rfl⟩
    intro j a hj
    exact absurd hj (by omega)
  have hfb : FailsAt hostFailSecond 1 2 := by
    refine ⟨?_, fun a => rfl⟩
    intro j a hj
    have hj0 : j = 0 := by omega
    subst hj0
    rfl
  refine ⟨⟨hfa, hfb, by decide⟩, ?_, ?_, ?_⟩
  · exact c5_first_failure_aborts.1 "ns" none ["echo"] 1 ⟨hostFailAt 0, [], []⟩ 0 2
      hfa (by decide) rfl (by omega) (by omega)
  · exact c5_first_failure_aborts.2.1 ⟨hostFailSecond, [], []⟩ 1 2
      hfb (by decide) rfl (by omega) (by decide)
  · exact c5_first_failure_aborts.2.2 "ns" "agent0" "f" "a\n" ⟨hostFailAt 0, [], []⟩ 0 2
      hfa (by decide) rfl (by decide)

/-- C6: the round-trip property fails on the code.  For the command
`["echo", "foo bar"]` (an argument with an embedded space), `shell_words::join`
alone round-trips (`echo 'foo bar'` re-splits into the original list), but the
wrapped command string `run_session` builds — `bash -lc 'echo 'foo bar''` —
does not: a POSIX shell splits it into `bash`, `-lc`, `echo foo`, `bar`,
because the joined string's own single quotes terminate the unescaped single
quotes of the `bash -lc '...'` wrapping.  So no script word exists making the
wrapped string parse as `bash -lc <script>` with `<script>` re-splitting into
the original argument list. -/
theorem c6_wrapped_quoting_divergence :
    shSplit (fullCommand none (shellJoin ["echo", "foo bar"])) =
      some ["bash", "-lc", "echo foo", "bar"] ∧
    shSplit (shellJoin ["echo", "foo bar"]) = some ["echo", "foo bar"] ∧
    ¬ wrappedRoundTrips none ["echo", "foo bar"] := by
  refine ⟨by decide, by decide, ?_⟩
  rintro ⟨script, h1, _h2⟩
  rw [show shSplit (fullCommand none (shellJoin ["echo", "foo bar"])) =
    some ["bash", "-lc", "echo foo", "bar"] from by decide] at h1
  simp at h1

end Jarvisctl
